import Mathlib

/-!
Presence registry of `backend/src/lib/socket.js`.

A shallow embedding of the module-level state of `socket.js` (the object
`userSocketMap`, the two gauges `activeConnections` and `usersOnline` of
`metrics.js`, and the `io.emit` calls) together with the two handlers that
mutate it: the `"connection"` handler and the `"disconnect"` handler it
installs on every socket.

Conventions of the embedding.

* `socket.handshake.query.userId` is an `Option String`: `none` is the
  JavaScript value `undefined` (no `userId` in the query string).  Any non-empty
  string is truthy, the strings `"undefined"` and `"0"` included.  A query
  string that repeats the parameter (an array value) is outside the model.
* `userSocketMap` is the list of own properties of the object, in creation
  order.  Property access follows JavaScript: keys are coerced with
  `ToPropertyKey`, reads fall back on `Object.prototype`, and a write to the key
  `__proto__` reaches the setter inherited from `Object.prototype`.
* A gauge value is a JavaScript number; it is an `Int` here, which is exact as
  long as the counts stay below `2 ^ 53`.
* `console.log` has no effect on the state and is left out.
-/

namespace PresenceRegistry

/-! ## JavaScript values and plain objects -/

/-- The results a property read on `userSocketMap` can give. -/
inductive JSValue where
  /-- The value `undefined`: no own property and nothing on the prototype. -/
  | undefined : JSValue
  /-- A string: the socket id stored under an own property. -/
  | string (s : String) : JSValue
  /-- The member of `Object.prototype` with the given name. -/
  | inherited (name : String) : JSValue
  deriving DecidableEq, Repr

/-- The own properties of `userSocketMap`: key and stored socket id. -/
abbrev UserSocketMap := List (String × String)

/-- Truthiness of `userId` in `if (userId)`: `undefined` and the empty string are falsy. -/
def truthy : Option String → Bool
  | none => false
  | some s => decide (s ≠ "")

/-- The key `userSocketMap[userId]` addresses: `ToPropertyKey` turns `undefined` into
the string `"undefined"`. -/
def toPropertyKey : Option String → String
  | none => "undefined"
  | some s => s

/-- The property names of `Object.prototype`, which every plain object inherits. -/
def objectPrototypeNames : List String :=
  ["constructor", "__defineGetter__", "__defineSetter__", "hasOwnProperty",
   "__lookupGetter__", "__lookupSetter__", "isPrototypeOf", "propertyIsEnumerable",
   "toString", "valueOf", "__proto__", "toLocaleString"]

/-- The list `Object.keys(userSocketMap)`: the own keys of the object.  They are listed in
creation order; the reordering of integer-like keys is not reproduced, and the properties
below depend on the members and the length of the list only. -/
def objectKeys (m : UserSocketMap) : List String :=
  m.map Prod.fst

/-- Replace the value of the own property `k`, keeping its position. -/
def overwrite (k v : String) : UserSocketMap → UserSocketMap
  | [] => []
  | (k', v') :: m => if k' = k then (k', v) :: overwrite k v m else (k', v') :: overwrite k v m

/-- The assignment `userSocketMap[k] = v` for a string `v`.  The key `__proto__` is an
accessor of `Object.prototype` whose setter ignores a value that is neither an object nor
`null`, so no own property is created; any other key is an own data property, updated in
place or appended. -/
def setProperty (m : UserSocketMap) (k v : String) : UserSocketMap :=
  if k = "__proto__" then m
  else if k ∈ objectKeys m then overwrite k v m
  else m ++ [(k, v)]

/-- The statement `delete userSocketMap[k]`: drops the own property `k` if there is one. -/
def deleteProperty (m : UserSocketMap) (k : String) : UserSocketMap :=
  m.filter (fun p => decide (p.1 ≠ k))

/-- The expression `userSocketMap[k]`: the own property if there is one, otherwise the
member of `Object.prototype` of that name, otherwise `undefined`. -/
def getProperty (m : UserSocketMap) (k : String) : JSValue :=
  match m.lookup k with
  | some v => JSValue.string v
  | none => if k ∈ objectPrototypeNames then JSValue.inherited k else JSValue.undefined

/-! ## Module state and handlers -/

/-- What the handlers read from a socket: `socket.id` and `socket.handshake.query.userId`. -/
structure Socket where
  id : String
  userId : Option String
  deriving DecidableEq, Repr

/-- One call `io.emit(event, payload)`. -/
structure Emit where
  event : String
  payload : List String
  deriving DecidableEq, Repr

/-- The module-level state of `socket.js`. -/
structure State where
  /-- The object `userSocketMap`. -/
  userSocketMap : UserSocketMap
  /-- The gauge `websocket_connections_active`. -/
  activeConnections : Int
  /-- The gauge `users_online`. -/
  usersOnline : Int
  /-- The calls of `io.emit` so far, the most recent first. -/
  emitted : List Emit
  deriving DecidableEq, Repr

/-- The state when the module has been loaded: `userSocketMap = {}`, both gauges at 0. -/
def State.initial : State :=
  { userSocketMap := [], activeConnections := 0, usersOnline := 0, emitted := [] }

/-- The function `getReceiverSocketId(userId)`: `return userSocketMap[userId]`. -/
def getReceiverSocketId (st : State) (userId : String) : JSValue :=
  getProperty st.userSocketMap userId

/-- The handler `io.on("connection", (socket) => ...)`, lines 22 to 33 of `socket.js`. -/
def onConnection (st : State) (socket : Socket) : State :=
  -- activeConnections.inc();
  let st1 := { st with activeConnections := st.activeConnections + 1 }
  -- usersOnline.set(Object.keys(userSocketMap).length + 1);
  let st2 := { st1 with usersOnline := ((objectKeys st1.userSocketMap).length : Int) + 1 }
  -- if (userId) userSocketMap[userId] = socket.id;
  let st3 :=
    if truthy socket.userId then
      { st2 with
        userSocketMap := setProperty st2.userSocketMap (toPropertyKey socket.userId) socket.id }
    else st2
  -- io.emit("getOnlineUsers", Object.keys(userSocketMap));
  { st3 with emitted := ⟨"getOnlineUsers", objectKeys st3.userSocketMap⟩ :: st3.emitted }

/-- The handler `socket.on("disconnect", () => ...)`, lines 35 to 44 of `socket.js`; the
closure holds the `userId` and the `socket` of the connection it was installed on. -/
def onDisconnect (st : State) (socket : Socket) : State :=
  -- delete userSocketMap[userId];
  let st1 := { st with
    userSocketMap := deleteProperty st.userSocketMap (toPropertyKey socket.userId) }
  -- activeConnections.dec();
  let st2 := { st1 with activeConnections := st1.activeConnections - 1 }
  -- usersOnline.set(Object.keys(userSocketMap).length);
  let st3 := { st2 with usersOnline := ((objectKeys st2.userSocketMap).length : Int) }
  -- io.emit("getOnlineUsers", Object.keys(userSocketMap));
  { st3 with emitted := ⟨"getOnlineUsers", objectKeys st3.userSocketMap⟩ :: st3.emitted }

/-! ## Lifecycle events and reachable states -/

/-- A lifecycle event delivered by the transport layer. -/
inductive Event where
  /-- A client connected: the `"connection"` handler runs on its socket. -/
  | connection (socket : Socket) : Event
  /-- The socket closed: its `"disconnect"` handler runs. -/
  | disconnect (socket : Socket) : Event
  deriving DecidableEq, Repr

/-- The handler an event triggers. -/
def handle (st : State) : Event → State
  | Event.connection s => onConnection st s
  | Event.disconnect s => onDisconnect st s

/-- The server state together with the sockets the transport layer holds open. -/
structure World where
  server : State
  openSockets : List Socket
  deriving DecidableEq, Repr

/-- The world at start-up: initial state, no connection. -/
def World.initial : World :=
  { server := State.initial, openSockets := [] }

/-- One lifecycle event.  A socket can only close while it is open, and it then closes
once: a `disconnect` for a socket that is not open is not an event of the system. -/
def step (w : World) : Event → Option World
  | Event.connection s =>
      some { server := onConnection w.server s, openSockets := s :: w.openSockets }
  | Event.disconnect s =>
      if s ∈ w.openSockets then
        some { server := onDisconnect w.server s, openSockets := w.openSockets.erase s }
      else none

/-- A sequence of lifecycle events, processed one after the other. -/
def run (w : World) : List Event → Option World
  | [] => some w
  | e :: es => (step w e).bind (fun w' => run w' es)

/-- The states the server can be in: those some event sequence leads to from start-up. -/
def Reachable (w : World) : Prop :=
  ∃ es : List Event, run World.initial es = some w

/-! ## The words of the specification -/

/-- The identity an event carries: the `userId` of its socket. -/
def Event.identity : Event → Option String
  | Event.connection s => s.userId
  | Event.disconnect s => s.userId

/-- Whether the event is a connection-open. -/
def Event.isOpen : Event → Bool
  | Event.connection _ => true
  | Event.disconnect _ => false

/-- The most recent event of the sequence that carries the identity `u`, if any. -/
def mostRecentEvent (es : List Event) (u : String) : Option Event :=
  es.reverse.find? (fun e => decide (e.identity = some u))

/-- The identity `u` counts as online after the sequence `es`: its most recent event was an
open (so it has not closed since). -/
def mostRecentIsOpen (es : List Event) (u : String) : Bool :=
  match mostRecentEvent es u with
  | some e => e.isOpen
  | none => false

/-- The event is the close of a connection whose `userId` addresses the key `k`: its handler
runs `delete userSocketMap[userId]` on that key. -/
def closesKey (k : String) : Event → Bool
  | Event.connection _ => false
  | Event.disconnect t => decide (toPropertyKey t.userId = k)

/-- The event is the open of a connection that registers under the key `k`: its `userId` is
truthy and addresses that key. -/
def opensKey (k : String) : Event → Bool
  | Event.connection t => truthy t.userId && decide (toPropertyKey t.userId = k)
  | Event.disconnect _ => false

/-! ## Invariants and auxiliary notions -/

/-- The status of `u` after `es` when it was `b` before: the kind of its most recent event
in `es`, or `b` when `es` has no event of `u`. -/
def statusAfter (b : Bool) (es : List Event) (u : String) : Bool :=
  match mostRecentEvent es u with
  | some e => e.isOpen
  | none => b

/-- Every entry of the registry stores the id of an open socket that connected with the
entry's key as its `userId`. -/
def EntriesOpen (w : World) : Prop :=
  ∀ k h : String, (k, h) ∈ w.server.userSocketMap → (⟨h, some k⟩ : Socket) ∈ w.openSockets

/-- The invariant of the reachable states: entries belong to open sockets, the object has
each key once, and the gauge of active connections counts the open sockets. -/
structure Inv (w : World) : Prop where
  entries : EntriesOpen w
  nodup : (objectKeys w.server.userSocketMap).Nodup
  active : w.server.activeConnections = (w.openSockets.length : Int)

/-! ## Plain-object lemmas -/

theorem objectKeys_overwrite (k v : String) (m : UserSocketMap) :
    objectKeys (overwrite k v m) = objectKeys m := by
  induction m with
  | nil => rfl
  | cons p m ih =>
    obtain ⟨a, b⟩ := p
    by_cases h : a = k
    · simpa [overwrite, objectKeys, h] using ih
    · simpa [overwrite, objectKeys, h] using ih

theorem mem_overwrite {k v x h : String} {m : UserSocketMap}
    (hm : (x, h) ∈ overwrite k v m) : ((x, h) ∈ m ∧ x ≠ k) ∨ (x = k ∧ h = v) := by
  induction m with
  | nil => simp [overwrite] at hm
  | cons p m ih =>
    obtain ⟨a, b⟩ := p
    by_cases hak : a = k
    · simp only [overwrite, hak, if_true, List.mem_cons, Prod.mk.injEq] at hm
      rcases hm with ⟨hx, hh⟩ | hm
      · exact Or.inr ⟨hx, hh⟩
      · rcases ih hm with ⟨h1, h2⟩ | h1
        · exact Or.inl ⟨List.mem_cons_of_mem _ h1, h2⟩
        · exact Or.inr h1
    · simp only [overwrite, hak, if_false, List.mem_cons, Prod.mk.injEq] at hm
      rcases hm with ⟨hx, hh⟩ | hm
      · subst hx; subst hh
        exact Or.inl ⟨List.mem_cons_self _ _, hak⟩
      · rcases ih hm with ⟨h1, h2⟩ | h1
        · exact Or.inl ⟨List.mem_cons_of_mem _ h1, h2⟩
        · exact Or.inr h1

theorem lookup_overwrite_self {k v : String} {m : UserSocketMap} (hk : k ∈ objectKeys m) :
    (overwrite k v m).lookup k = some v := by
  induction m with
  | nil => simp [objectKeys] at hk
  | cons p m ih =>
    obtain ⟨a, b⟩ := p
    by_cases hak : a = k
    · simp [overwrite, hak, List.lookup]
    · have hk' : k ∈ objectKeys m := by
        simp only [objectKeys, List.map_cons, List.mem_cons] at hk
        rcases hk with hk | hk
        · exact absurd hk.symm hak
        · exact hk
      have hne : (k == a) = false := by simpa using fun h : k = a => hak h.symm
      simp [overwrite, hak, List.lookup, hne, ih hk']

theorem lookup_overwrite_ne {k v x : String} (hx : x ≠ k) (m : UserSocketMap) :
    (overwrite k v m).lookup x = m.lookup x := by
  induction m with
  | nil => rfl
  | cons p m ih =>
    obtain ⟨a, b⟩ := p
    by_cases hak : a = k
    · have hne : (x == a) = false := by simpa [hak] using hx
      simp only [overwrite, hak, if_true, List.lookup]
      rw [hak] at hne
      simp only [hne]
      exact ih
    · by_cases hxa : x = a
      · simp [overwrite, hak, List.lookup, hxa]
      · have hne : (x == a) = false := by simpa using hxa
        simp [overwrite, hak, List.lookup, hne, ih]

theorem lookup_eq_none_of_not_mem {x : String} {m : UserSocketMap}
    (hx : x ∉ objectKeys m) : m.lookup x = none := by
  induction m with
  | nil => rfl
  | cons p m ih =>
    obtain ⟨a, b⟩ := p
    simp only [objectKeys, List.map_cons, List.mem_cons, not_or] at hx
    have hne : (x == a) = false := by simpa using hx.1
    simp only [List.lookup, hne]
    exact ih hx.2

theorem lookup_append_singleton {x k v : String} {m : UserSocketMap} :
    (m ++ [(k, v)]).lookup x =
      match m.lookup x with
      | some h => some h
      | none => if x = k then some v else none := by
  induction m with
  | nil =>
    by_cases h : x = k
    · simp [List.lookup, h]
    · have hne : (x == k) = false := by simpa using h
      simp [List.lookup, h, hne]
  | cons p m ih =>
    obtain ⟨a, b⟩ := p
    by_cases hxa : x = a
    · simp [List.lookup, hxa]
    · have hne : (x == a) = false := by simpa using hxa
      simp only [List.cons_append, List.lookup, hne]
      exact ih

theorem mem_objectKeys_setProperty {m : UserSocketMap} {k v x : String}
    (hk : k ≠ "__proto__") :
    x ∈ objectKeys (setProperty m k v) ↔ x = k ∨ x ∈ objectKeys m := by
  unfold setProperty
  rw [if_neg hk]
  by_cases hmem : k ∈ objectKeys m
  · rw [if_pos hmem, objectKeys_overwrite]
    constructor
    · exact Or.inr
    · rintro (h | h)
      · exact h ▸ hmem
      · exact h
  · rw [if_neg hmem]
    simp [objectKeys, or_comm]

theorem length_setProperty_of_mem {m : UserSocketMap} {k v : String}
    (hk : k ∈ objectKeys m) :
    (objectKeys (setProperty m k v)).length = (objectKeys m).length := by
  unfold setProperty
  by_cases hp : k = "__proto__"
  · rw [if_pos hp]
  · rw [if_neg hp, if_pos hk, objectKeys_overwrite]

theorem lookup_setProperty_self {m : UserSocketMap} {k v : String} (hk : k ≠ "__proto__") :
    (setProperty m k v).lookup k = some v := by
  unfold setProperty
  rw [if_neg hk]
  by_cases hmem : k ∈ objectKeys m
  · rw [if_pos hmem]
    exact lookup_overwrite_self hmem
  · rw [if_neg hmem, lookup_append_singleton, lookup_eq_none_of_not_mem hmem]
    simp

theorem lookup_setProperty_ne {m : UserSocketMap} {k v x : String} (hx : x ≠ k) :
    (setProperty m k v).lookup x = m.lookup x := by
  unfold setProperty
  by_cases hp : k = "__proto__"
  · rw [if_pos hp]
  · rw [if_neg hp]
    by_cases hmem : k ∈ objectKeys m
    · rw [if_pos hmem]
      exact lookup_overwrite_ne hx m
    · rw [if_neg hmem, lookup_append_singleton]
      cases h : m.lookup x with
      | some h' => rfl
      | none => simp [hx]

theorem mem_setProperty {m : UserSocketMap} {k v x h : String}
    (hm : (x, h) ∈ setProperty m k v) : (x, h) ∈ m ∨ (x = k ∧ h = v) := by
  unfold setProperty at hm
  by_cases hp : k = "__proto__"
  · rw [if_pos hp] at hm
    exact Or.inl hm
  · rw [if_neg hp] at hm
    by_cases hmem : k ∈ objectKeys m
    · rw [if_pos hmem] at hm
      rcases mem_overwrite hm with h1 | h1
      · exact Or.inl h1.1
      · exact Or.inr h1
    · rw [if_neg hmem] at hm
      simpa using hm

theorem nodup_objectKeys_setProperty {m : UserSocketMap} {k v : String}
    (hm : (objectKeys m).Nodup) : (objectKeys (setProperty m k v)).Nodup := by
  unfold setProperty
  by_cases hp : k = "__proto__"
  · rw [if_pos hp]; exact hm
  · rw [if_neg hp]
    by_cases hmem : k ∈ objectKeys m
    · rw [if_pos hmem, objectKeys_overwrite]; exact hm
    · rw [if_neg hmem]
      simp only [objectKeys, List.map_append, List.map_cons, List.map_nil]
      rw [List.nodup_append]
      refine ⟨hm, List.nodup_singleton _, ?_⟩
      intro a ha hb
      simp only [List.mem_singleton] at hb
      exact hmem (hb ▸ ha)

theorem mem_deleteProperty {m : UserSocketMap} {k x h : String} :
    (x, h) ∈ deleteProperty m k ↔ (x, h) ∈ m ∧ x ≠ k := by
  simp [deleteProperty, List.mem_filter]

theorem mem_objectKeys_deleteProperty {m : UserSocketMap} {k x : String} :
    x ∈ objectKeys (deleteProperty m k) ↔ x ∈ objectKeys m ∧ x ≠ k := by
  simp only [objectKeys, deleteProperty, List.mem_map, List.mem_filter, decide_eq_true_eq]
  constructor
  · rintro ⟨p, ⟨hp, hne⟩, rfl⟩
    exact ⟨⟨p, hp, rfl⟩, hne⟩
  · rintro ⟨⟨p, hp, rfl⟩, hne⟩
    exact ⟨p, ⟨hp, hne⟩, rfl⟩

theorem deleteProperty_of_not_mem {m : UserSocketMap} {k : String}
    (hk : k ∉ objectKeys m) : deleteProperty m k = m := by
  unfold deleteProperty
  rw [List.filter_eq_self]
  intro p hp
  simp only [decide_eq_true_eq]
  intro h
  exact hk (by simpa [objectKeys] using ⟨p.2, h ▸ hp⟩)

theorem nodup_objectKeys_deleteProperty {m : UserSocketMap} {k : String}
    (hm : (objectKeys m).Nodup) : (objectKeys (deleteProperty m k)).Nodup := by
  unfold objectKeys deleteProperty
  exact hm.sublist ((List.filter_sublist m).map Prod.fst)

theorem lookup_deleteProperty_ne {k x : String} (hx : x ≠ k) (m : UserSocketMap) :
    (deleteProperty m k).lookup x = m.lookup x := by
  induction m with
  | nil => rfl
  | cons p m ih =>
    obtain ⟨a, b⟩ := p
    by_cases hak : a = k
    · have hne : (x == a) = false := by simpa [hak] using hx
      have : deleteProperty ((a, b) :: m) k = deleteProperty m k := by
        simp [deleteProperty, hak]
      rw [this, ih]
      simp [List.lookup, hne]
    · have : deleteProperty ((a, b) :: m) k = (a, b) :: deleteProperty m k := by
        simp [deleteProperty, hak]
      rw [this]
      by_cases hxa : x = a
      · simp [List.lookup, hxa]
      · have hne : (x == a) = false := by simpa using hxa
        simp only [List.lookup, hne]
        exact ih

/-! ## What one handler does to each part of the state -/

theorem onConnection_userSocketMap (st : State) (s : Socket) :
    (onConnection st s).userSocketMap =
      if truthy s.userId then setProperty st.userSocketMap (toPropertyKey s.userId) s.id
      else st.userSocketMap := by
  unfold onConnection
  by_cases h : truthy s.userId = true <;> simp [h]

theorem onDisconnect_userSocketMap (st : State) (s : Socket) :
    (onDisconnect st s).userSocketMap =
      deleteProperty st.userSocketMap (toPropertyKey s.userId) := rfl

theorem onConnection_activeConnections (st : State) (s : Socket) :
    (onConnection st s).activeConnections = st.activeConnections + 1 := by
  unfold onConnection
  by_cases h : truthy s.userId = true <;> simp [h]

theorem onDisconnect_activeConnections (st : State) (s : Socket) :
    (onDisconnect st s).activeConnections = st.activeConnections - 1 := rfl

theorem onConnection_usersOnline (st : State) (s : Socket) :
    (onConnection st s).usersOnline = ((objectKeys st.userSocketMap).length : Int) + 1 := by
  unfold onConnection
  by_cases h : truthy s.userId = true <;> simp [h]

theorem onConnection_emitted (st : State) (s : Socket) :
    (onConnection st s).emitted =
      ⟨"getOnlineUsers", objectKeys (onConnection st s).userSocketMap⟩ :: st.emitted := by
  unfold onConnection
  by_cases h : truthy s.userId = true <;> simp [h]

theorem onDisconnect_emitted (st : State) (s : Socket) :
    (onDisconnect st s).emitted =
      ⟨"getOnlineUsers", objectKeys (onDisconnect st s).userSocketMap⟩ :: st.emitted := rfl

theorem truthy_eq_some {o : Option String} (h : truthy o = true) :
    ∃ u, o = some u ∧ u ≠ "" := by
  cases o with
  | none => simp [truthy] at h
  | some u => exact ⟨u, rfl, by simpa [truthy] using h⟩

/-! ## Invariants of the reachable states -/

theorem inv_initial : Inv World.initial where
  entries := by intro k h hm; simp [World.initial, State.initial] at hm
  nodup := by simp [World.initial, State.initial, objectKeys]
  active := by simp [World.initial, State.initial]

theorem inv_step {w w' : World} {e : Event} (hw : Inv w) (hs : step w e = some w') :
    Inv w' := by
  cases e with
  | connection s =>
    simp only [step, Option.some.injEq] at hs
    subst hs
    refine ⟨?_, ?_, ?_⟩
    · intro k h hm
      simp only [onConnection_userSocketMap] at hm
      by_cases ht : truthy s.userId = true
      · rw [if_pos ht] at hm
        rcases mem_setProperty hm with h1 | ⟨h1, h2⟩
        · exact List.mem_cons_of_mem _ (hw.entries k h h1)
        · obtain ⟨u, hu, _⟩ := truthy_eq_some ht
          have : (⟨h, some k⟩ : Socket) = s := by
            cases s with
            | mk i o =>
              simp only at hu h1 h2
              subst hu
              simp [toPropertyKey] at h1
              simp [h1, h2]
          rw [this]
          exact List.mem_cons_self _ _
      · rw [if_neg ht] at hm
        exact List.mem_cons_of_mem _ (hw.entries k h hm)
    · simp only [onConnection_userSocketMap]
      by_cases ht : truthy s.userId = true
      · rw [if_pos ht]; exact nodup_objectKeys_setProperty hw.nodup
      · rw [if_neg ht]; exact hw.nodup
    · simp only [onConnection_activeConnections, hw.active, List.length_cons]
      push_cast
      ring
  | disconnect s =>
    simp only [step] at hs
    by_cases hmem : s ∈ w.openSockets
    · rw [if_pos hmem, Option.some.injEq] at hs
      subst hs
      refine ⟨?_, ?_, ?_⟩
      · intro k h hm
        simp only [onDisconnect_userSocketMap] at hm
        obtain ⟨h1, h2⟩ := mem_deleteProperty.mp hm
        have hne : (⟨h, some k⟩ : Socket) ≠ s := by
          intro heq
          apply h2
          rw [← heq]
          rfl
        exact (List.mem_erase_of_ne hne).mpr (hw.entries k h h1)
      · simp only [onDisconnect_userSocketMap]
        exact nodup_objectKeys_deleteProperty hw.nodup
      · simp only [onDisconnect_activeConnections, hw.active, List.length_erase_of_mem hmem]
        have : 1 ≤ w.openSockets.length := List.length_pos_of_mem hmem
        omega
    · rw [if_neg hmem] at hs
      exact absurd hs (by simp)

theorem inv_run {es : List Event} {w w' : World} (hw : Inv w) (hr : run w es = some w') :
    Inv w' := by
  induction es generalizing w with
  | nil =>
    simp only [run, Option.some.injEq] at hr
    exact hr ▸ hw
  | cons e es ih =>
    simp only [run] at hr
    cases hs : step w e with
    | none => simp [hs] at hr
    | some w1 =>
      rw [hs] at hr
      exact ih (inv_step hw hs) hr

theorem inv_of_reachable {w : World} (h : Reachable w) : Inv w := by
  obtain ⟨es, hes⟩ := h
  exact inv_run inv_initial hes

/-- The registry never has more entries than there are open sockets. -/
theorem length_objectKeys_le_of_inv {w : World} (hw : Inv w) :
    (objectKeys w.server.userSocketMap).length ≤ w.openSockets.length := by
  let f : String × String → Socket := fun p => ⟨p.2, some p.1⟩
  have hkeys : (w.server.userSocketMap.map f).map (fun s => toPropertyKey s.userId)
      = objectKeys w.server.userSocketMap := by
    simp [objectKeys, List.map_map, Function.comp_def, f, toPropertyKey]
  have hnd : (w.server.userSocketMap.map f).Nodup := by
    apply List.Nodup.of_map (fun s => toPropertyKey s.userId)
    rw [hkeys]
    exact hw.nodup
  have hsub : w.server.userSocketMap.map f ⊆ w.openSockets := by
    intro s hs
    obtain ⟨p, hp, rfl⟩ := List.mem_map.mp hs
    exact hw.entries p.1 p.2 hp
  have := (List.subperm_of_subset hnd hsub).length_le
  simpa [objectKeys] using this

/-! ## The gauge of online users -/

/-- After a close the gauge `users_online` is the number of keys of the registry. -/
theorem usersOnline_eq_size_after_disconnect (st : State) (s : Socket) :
    (onDisconnect st s).usersOnline =
      ((objectKeys (onDisconnect st s).userSocketMap).length : Int) := rfl

/-- After an open that creates a new entry the gauge `users_online` is the number of keys
of the registry. -/
theorem usersOnline_eq_size_after_new_registration (st : State) (s : Socket)
    (ht : truthy s.userId = true) (hp : toPropertyKey s.userId ≠ "__proto__")
    (hnew : toPropertyKey s.userId ∉ objectKeys st.userSocketMap) :
    (onConnection st s).usersOnline =
      ((objectKeys (onConnection st s).userSocketMap).length : Int) := by
  rw [onConnection_usersOnline, onConnection_userSocketMap, if_pos ht]
  unfold setProperty
  rw [if_neg hp, if_neg hnew]
  simp [objectKeys]

/-- C1 (code defect): the `"connection"` handler sets `users_online` to the number of keys
before the registration plus one.  From the initial state, an open without identity leaves
the gauge at 1 over an empty registry, and a second open of the identity `alice` leaves it
at 2 over a registry of one key: the gauge is not the cardinality of the registry. -/
theorem usersOnline_differs_from_registry_size :
    ((onConnection State.initial ⟨"s1", none⟩).usersOnline = 1 ∧
      (objectKeys (onConnection State.initial ⟨"s1", none⟩).userSocketMap).length = 0) ∧
    ((onConnection (onConnection State.initial ⟨"s1", some "alice"⟩)
        ⟨"s2", some "alice"⟩).usersOnline = 2 ∧
      (objectKeys (onConnection (onConnection State.initial ⟨"s1", some "alice"⟩)
        ⟨"s2", some "alice"⟩).userSocketMap).length = 1) := by
  decide

/-! ## The registry and the most recent event of an identity -/

theorem mostRecentIsOpen_eq_statusAfter (es : List Event) (u : String) :
    mostRecentIsOpen es u = statusAfter false es u := rfl

theorem statusAfter_cons (b : Bool) (e : Event) (es : List Event) (u : String) :
    statusAfter b (e :: es) u =
      statusAfter (if e.identity = some u then e.isOpen else b) es u := by
  unfold statusAfter mostRecentEvent
  rw [List.reverse_cons, List.find?_append]
  cases h : es.reverse.find? (fun e => decide (e.identity = some u)) with
  | some e' => simp
  | none =>
    by_cases he : e.identity = some u
    · simp [List.find?, he]
    · simp [List.find?, he]

theorem setProperty_proto (m : UserSocketMap) (v : String) :
    setProperty m "__proto__" v = m := by
  simp [setProperty]

/-- One event, seen from an identity `u` that is non-empty and not `__proto__`: `u` is a key
afterwards exactly when the event opened `u`, or did not carry `u` and `u` was a key before.
The event itself may carry any identity; only the close of an anonymous connection is
excluded, and only for `u = "undefined"`. -/
theorem mem_objectKeys_handle (st : State) (e : Event) (u : String)
    (hne : u ≠ "") (hp : u ≠ "__proto__")
    (hanon : ∀ s : Socket, e = Event.disconnect s → s.userId = none → u ≠ "undefined") :
    u ∈ objectKeys (handle st e).userSocketMap ↔
      (if e.identity = some u then e.isOpen else decide (u ∈ objectKeys st.userSocketMap))
        = true := by
  cases e with
  | connection s =>
    obtain ⟨i, o⟩ := s
    simp only [handle, onConnection_userSocketMap, Event.identity, Event.isOpen]
    cases o with
    | none => simp [truthy]
    | some v =>
      by_cases hv : v = ""
      · have : ¬ ("" = u) := fun h => hne h.symm
        simp [truthy, hv, this]
      · have ht : truthy (some v) = true := by simp [truthy, hv]
        rw [if_pos ht]
        simp only [toPropertyKey]
        by_cases hvp : v = "__proto__"
        · have : ¬ ("__proto__" = u) := fun h => hp h.symm
          simp [hvp, setProperty_proto, this]
        · rw [mem_objectKeys_setProperty hvp]
          by_cases huv : v = u
          · simp [huv]
          · have : u ≠ v := fun h => huv h.symm
            simp [huv, this]
  | disconnect s =>
    have hanon' := hanon s rfl
    obtain ⟨i, o⟩ := s
    simp only [handle, onDisconnect_userSocketMap, Event.identity, Event.isOpen]
    rw [mem_objectKeys_deleteProperty]
    cases o with
    | none =>
      have := hanon' rfl
      simp [toPropertyKey, this]
    | some v =>
      simp only [toPropertyKey]
      by_cases huv : v = u
      · simp [huv]
      · have : u ≠ v := fun h => huv h.symm
        simp [huv, this]

theorem mem_objectKeys_foldl_handle (es : List Event) (st : State) (u : String)
    (hne : u ≠ "") (hp : u ≠ "__proto__")
    (hanon : ∀ s : Socket, Event.disconnect s ∈ es → s.userId = none → u ≠ "undefined") :
    u ∈ objectKeys (es.foldl handle st).userSocketMap ↔
      statusAfter (decide (u ∈ objectKeys st.userSocketMap)) es u = true := by
  induction es generalizing st with
  | nil => simp [statusAfter, mostRecentEvent]
  | cons e es ih =>
    rw [List.foldl_cons, statusAfter_cons,
      ih (handle st e) (fun s hs => hanon s (List.mem_cons_of_mem _ hs))]
    have h := mem_objectKeys_handle st e u hne hp
      (fun s hs => hanon s (hs ▸ List.mem_cons_self _ _))
    by_cases hm : u ∈ objectKeys (handle st e).userSocketMap
    · have h' := h.mp hm
      simp only [hm, decide_True, h']
    · have h' : (if e.identity = some u then e.isOpen
          else decide (u ∈ objectKeys st.userSocketMap)) = false :=
        Bool.eq_false_iff.mpr (fun hx => hm (h.mpr hx))
      simp only [hm, decide_False, h']

/-- For every sequence of connection-open and connection-close events, whatever identities
its events carry (absent, empty, `__proto__`, repeated), processed from the empty registry:
an identity `u` that is non-empty and not `__proto__` is a key of `userSocketMap` exactly
when its most recent event was an open.  For `u = "undefined"` the sequence must hold no
close of a connection without identity. -/
theorem registry_key_iff_most_recent_open (es : List Event) (u : String)
    (hne : u ≠ "") (hp : u ≠ "__proto__")
    (hanon : ∀ s : Socket, Event.disconnect s ∈ es → s.userId = none → u ≠ "undefined") :
    u ∈ objectKeys (es.foldl handle State.initial).userSocketMap ↔
      mostRecentIsOpen es u = true := by
  rw [mostRecentIsOpen_eq_statusAfter]
  simpa [State.initial, objectKeys] using
    mem_objectKeys_foldl_handle es State.initial u hne hp hanon

/-- The sequence open without identity, open with the empty identity, open `__proto__`,
open `alice`, open `carol`, close `alice`, close of the anonymous connection: `carol` is a
key of the registry and its most recent event is an open. -/
theorem registry_key_iff_most_recent_open_example :
    "carol" ∈ objectKeys
        ([Event.connection ⟨"s0", none⟩, Event.connection ⟨"s1", some ""⟩,
          Event.connection ⟨"s2", some "__proto__"⟩, Event.connection ⟨"s3", some "alice"⟩,
          Event.connection ⟨"s4", some "carol"⟩, Event.disconnect ⟨"s3", some "alice"⟩,
          Event.disconnect ⟨"s0", none⟩].foldl handle State.initial).userSocketMap ↔
      mostRecentIsOpen
        [Event.connection ⟨"s0", none⟩, Event.connection ⟨"s1", some ""⟩,
          Event.connection ⟨"s2", some "__proto__"⟩, Event.connection ⟨"s3", some "alice"⟩,
          Event.connection ⟨"s4", some "carol"⟩, Event.disconnect ⟨"s3", some "alice"⟩,
          Event.disconnect ⟨"s0", none⟩] "carol" = true :=
  registry_key_iff_most_recent_open _ "carol" (by decide) (by decide)
    (fun _ _ _ => by decide)

/-- C2 (code defect): two sequences with distinct identities after which the registry is
not the set of identities whose most recent event was an open.  A single open with the
identity `__proto__`: its most recent event is an open and the registry has no key.  Open
`undefined` (the string), open without identity, close of the connection without identity:
the most recent event of `undefined` is its open, and the registry no longer has the key. -/
theorem registry_keys_ne_most_recent_open :
    ¬ ("__proto__" ∈ objectKeys
          ([Event.connection ⟨"s1", some "__proto__"⟩].foldl handle
            State.initial).userSocketMap ↔
        mostRecentIsOpen [Event.connection ⟨"s1", some "__proto__"⟩] "__proto__" = true) ∧
    ¬ ("undefined" ∈ objectKeys
          ([Event.connection ⟨"s1", some "undefined"⟩, Event.connection ⟨"s2", none⟩,
            Event.disconnect ⟨"s2", none⟩].foldl handle State.initial).userSocketMap ↔
        mostRecentIsOpen
          [Event.connection ⟨"s1", some "undefined"⟩, Event.connection ⟨"s2", none⟩,
            Event.disconnect ⟨"s2", none⟩] "undefined" = true) := by
  decide

/-! ## Entries and open connections -/

theorem getReceiverSocketId_of_lookup {st : State} {k v : String}
    (h : st.userSocketMap.lookup k = some v) :
    getReceiverSocketId st k = JSValue.string v := by
  simp [getReceiverSocketId, getProperty, h]

theorem lookup_of_mem_objectKeys {m : UserSocketMap} {k : String} (hk : k ∈ objectKeys m) :
    ∃ h : String, m.lookup k = some h ∧ (k, h) ∈ m := by
  induction m with
  | nil => simp [objectKeys] at hk
  | cons p m ih =>
    obtain ⟨a, b⟩ := p
    by_cases hka : k = a
    · exact ⟨b, by simp [List.lookup, hka], by simp [hka]⟩
    · have hne : (k == a) = false := by simpa using hka
      have hk' : k ∈ objectKeys m := by
        simp only [objectKeys, List.map_cons, List.mem_cons] at hk
        rcases hk with hk | hk
        · exact absurd hk hka
        · exact hk
      obtain ⟨h, h1, h2⟩ := ih hk'
      exact ⟨h, by simp only [List.lookup, hne]; exact h1, List.mem_cons_of_mem _ h2⟩

theorem mem_objectKeys_setProperty_of_mem {m : UserSocketMap} {k v x : String}
    (hx : x ∈ objectKeys m) : x ∈ objectKeys (setProperty m k v) := by
  by_cases hp : k = "__proto__"
  · rw [hp, setProperty_proto]; exact hx
  · exact (mem_objectKeys_setProperty hp).mpr (Or.inr hx)

theorem run_append (w : World) (es fs : List Event) :
    run w (es ++ fs) = (run w es).bind (fun w' => run w' fs) := by
  induction es generalizing w with
  | nil => simp [run]
  | cons e es ih =>
    simp only [List.cons_append, run]
    cases step w e with
    | none => rfl
    | some w1 => simp [ih]

theorem run_server {es : List Event} {w w' : World} (hr : run w es = some w') :
    w'.server = es.foldl handle w.server := by
  induction es generalizing w with
  | nil =>
    simp only [run, Option.some.injEq] at hr
    simp [← hr]
  | cons e es ih =>
    simp only [run] at hr
    cases hs : step w e with
    | none => simp [hs] at hr
    | some w1 =>
      rw [hs] at hr
      rw [ih hr, List.foldl_cons]
      cases e with
      | connection s =>
        simp only [step, Option.some.injEq] at hs
        simp [← hs, handle]
      | disconnect s =>
        simp only [step] at hs
        by_cases hmem : s ∈ w.openSockets
        · rw [if_pos hmem, Option.some.injEq] at hs
          simp [← hs, handle]
        · rw [if_neg hmem] at hs
          exact absurd hs (by simp)

/-- A socket stays open as long as no close addresses its key. -/
theorem mem_openSockets_run {es : List Event} {w w' : World} {s : Socket}
    (hr : run w es = some w') (hs : s ∈ w.openSockets)
    (hc : ∀ e ∈ es, closesKey (toPropertyKey s.userId) e = false) : s ∈ w'.openSockets := by
  induction es generalizing w with
  | nil =>
    simp only [run, Option.some.injEq] at hr
    exact hr ▸ hs
  | cons e es ih =>
    simp only [run] at hr
    cases hst : step w e with
    | none => simp [hst] at hr
    | some w1 =>
      rw [hst] at hr
      refine ih hr ?_ (fun e' he' => hc e' (List.mem_cons_of_mem _ he'))
      cases e with
      | connection t =>
        simp only [step, Option.some.injEq] at hst
        rw [← hst]
        exact List.mem_cons_of_mem _ hs
      | disconnect t =>
        simp only [step] at hst
        by_cases hmem : t ∈ w.openSockets
        · rw [if_pos hmem, Option.some.injEq] at hst
          rw [← hst]
          have hne : s ≠ t := by
            intro h
            have := hc (Event.disconnect t) (List.mem_cons_self _ _)
            simp [closesKey, h] at this
          exact (List.mem_erase_of_ne hne).mpr hs
        · rw [if_neg hmem] at hst
          exact absurd hst (by simp)

/-- A key stays in the registry as long as no close addresses it. -/
theorem mem_objectKeys_foldl_of_no_close {es : List Event} {st : State} {k : String}
    (hk : k ∈ objectKeys st.userSocketMap) (hc : ∀ e ∈ es, closesKey k e = false) :
    k ∈ objectKeys (es.foldl handle st).userSocketMap := by
  induction es generalizing st with
  | nil => exact hk
  | cons e es ih =>
    rw [List.foldl_cons]
    refine ih ?_ (fun e' he' => hc e' (List.mem_cons_of_mem _ he'))
    cases e with
    | connection t =>
      simp only [handle, onConnection_userSocketMap]
      by_cases ht : truthy t.userId = true
      · rw [if_pos ht]; exact mem_objectKeys_setProperty_of_mem hk
      · rw [if_neg ht]; exact hk
    | disconnect t =>
      simp only [handle, onDisconnect_userSocketMap]
      have := hc (Event.disconnect t) (List.mem_cons_self _ _)
      simp only [closesKey, decide_eq_false_iff_not] at this
      exact mem_objectKeys_deleteProperty.mpr ⟨hk, fun h => this h.symm⟩

/-- The value stored under a key stays as long as no close and no open addresses the key. -/
theorem lookup_foldl_of_not_addressed {es : List Event} {st : State} {k : String}
    (hc : ∀ e ∈ es, closesKey k e = false) (ho : ∀ e ∈ es, opensKey k e = false) :
    (es.foldl handle st).userSocketMap.lookup k = st.userSocketMap.lookup k := by
  induction es generalizing st with
  | nil => rfl
  | cons e es ih =>
    rw [List.foldl_cons, ih (fun e' he' => hc e' (List.mem_cons_of_mem _ he'))
      (fun e' he' => ho e' (List.mem_cons_of_mem _ he'))]
    cases e with
    | connection t =>
      simp only [handle, onConnection_userSocketMap]
      by_cases ht : truthy t.userId = true
      · rw [if_pos ht]
        have := ho (Event.connection t) (List.mem_cons_self _ _)
        simp only [opensKey, ht, Bool.true_and, decide_eq_false_iff_not] at this
        exact lookup_setProperty_ne (fun h => this h.symm)
      · rw [if_neg ht]
    | disconnect t =>
      simp only [handle, onDisconnect_userSocketMap]
      have := hc (Event.disconnect t) (List.mem_cons_self _ _)
      simp only [closesKey, decide_eq_false_iff_not] at this
      exact lookup_deleteProperty_ne (fun h => this h.symm) _

/-- C3 (amended): in every state reached by opens and closes (each close being for an open
connection), an entry of the registry stores the handle of a connection that is open and
that connected with the entry's identity.  Conversely, take any connection of the history
whose identity is non-empty and not `__proto__`: if no close addressing its key has
happened since it opened (its own close, the close of another connection with the same
identity, or for the identity `undefined` the close of a connection without identity), then
it is still open and the registry has an entry for its identity, whose handle is that of an
open connection with this identity; and if no later open registered under the key either,
the handle is its own.  Nothing is required of the events before it nor of events on other
keys.  When two connections are opened with the same identity and the earlier one closes,
the entry is removed although the later connection is still open. -/
theorem registry_entries_are_open_connections (es : List Event) (w : World)
    (hr : run World.initial es = some w) :
    (∀ k h : String, (k, h) ∈ w.server.userSocketMap →
        (⟨h, some k⟩ : Socket) ∈ w.openSockets) ∧
    (∀ (pre post : List Event) (s : Socket), es = pre ++ Event.connection s :: post →
        truthy s.userId = true → toPropertyKey s.userId ≠ "__proto__" →
        (∀ e ∈ post, closesKey (toPropertyKey s.userId) e = false) →
        s ∈ w.openSockets ∧
        (∃ t ∈ w.openSockets, t.userId = s.userId ∧
          getReceiverSocketId w.server (toPropertyKey s.userId) = JSValue.string t.id) ∧
        ((∀ e ∈ post, opensKey (toPropertyKey s.userId) e = false) →
          getReceiverSocketId w.server (toPropertyKey s.userId) = JSValue.string s.id)) ∧
    (∀ s1 s2 : Socket, s1.userId = s2.userId →
        run w [Event.connection s1, Event.connection s2, Event.disconnect s1] =
          some ⟨onDisconnect (onConnection (onConnection w.server s1) s2) s1,
                s2 :: w.openSockets⟩ ∧
        toPropertyKey s2.userId ∉ objectKeys
          (onDisconnect (onConnection (onConnection w.server s1) s2) s1).userSocketMap) := by
  have hentries := (inv_run inv_initial hr).entries
  refine ⟨hentries, ?_, ?_⟩
  · intro pre post s hes ht hp hc
    subst hes
    rw [run_append] at hr
    cases h1 : run World.initial pre with
    | none => simp [h1] at hr
    | some w1 =>
      rw [h1, Option.some_bind] at hr
      simp only [run, step, Option.some_bind] at hr
      have hsrv := run_server hr
      simp only at hsrv
      have hkey : toPropertyKey s.userId ∈
          objectKeys (onConnection w1.server s).userSocketMap := by
        rw [onConnection_userSocketMap, if_pos ht]
        exact (mem_objectKeys_setProperty hp).mpr (Or.inl rfl)
      have hlook : (onConnection w1.server s).userSocketMap.lookup (toPropertyKey s.userId)
          = some s.id := by
        rw [onConnection_userSocketMap, if_pos ht]
        exact lookup_setProperty_self hp
      refine ⟨mem_openSockets_run hr (List.mem_cons_self _ _) hc, ?_, ?_⟩
      · have hk : toPropertyKey s.userId ∈ objectKeys w.server.userSocketMap := by
          rw [hsrv]
          exact mem_objectKeys_foldl_of_no_close hkey hc
        obtain ⟨h, hl, hm⟩ := lookup_of_mem_objectKeys hk
        refine ⟨⟨h, some (toPropertyKey s.userId)⟩, hentries _ _ hm, ?_,
          getReceiverSocketId_of_lookup hl⟩
        obtain ⟨u, hu, _⟩ := truthy_eq_some ht
        simp [hu, toPropertyKey]
      · intro ho
        apply getReceiverSocketId_of_lookup
        rw [hsrv, lookup_foldl_of_not_addressed hc ho]
        exact hlook
  · intro s1 s2 hid
    constructor
    · by_cases h12 : s2 = s1
      · subst h12
        simp [run, step]
      · have hne : (s2 == s1) = false := by simpa using h12
        simp [run, step, List.erase_cons, hne]
    · rw [onDisconnect_userSocketMap, mem_objectKeys_deleteProperty, hid]
      exact fun h => h.2 rfl

/-- Witness of `registry_entries_are_open_connections` (C3): a connection `__proto__` that
opened and closed, two connections of `alice` that both closed, then open `bob` and an
open without identity; `bob` is still open and mapped to its own handle. -/
theorem registry_entries_are_open_connections_witness :
    (∀ k h : String, (k, h) ∈ [("bob", "s3")] →
        (⟨h, some k⟩ : Socket) ∈ [⟨"s4", none⟩, ⟨"s3", some "bob"⟩]) ∧
    (⟨"s3", some "bob"⟩ : Socket) ∈ [(⟨"s4", none⟩ : Socket), ⟨"s3", some "bob"⟩] ∧
    getReceiverSocketId
        ⟨[("bob", "s3")], 2, 2,
          [⟨"getOnlineUsers", ["bob"]⟩, ⟨"getOnlineUsers", ["bob"]⟩,
           ⟨"getOnlineUsers", []⟩, ⟨"getOnlineUsers", []⟩,
           ⟨"getOnlineUsers", ["alice"]⟩, ⟨"getOnlineUsers", ["alice"]⟩,
           ⟨"getOnlineUsers", []⟩, ⟨"getOnlineUsers", []⟩]⟩
        "bob" = JSValue.string "s3" :=
  have h := registry_entries_are_open_connections
    [Event.connection ⟨"s0", some "__proto__"⟩, Event.disconnect ⟨"s0", some "__proto__"⟩,
      Event.connection ⟨"a1", some "alice"⟩, Event.connection ⟨"a2", some "alice"⟩,
      Event.disconnect ⟨"a1", some "alice"⟩, Event.disconnect ⟨"a2", some "alice"⟩,
      Event.connection ⟨"s3", some "bob"⟩, Event.connection ⟨"s4", none⟩]
    ⟨⟨[("bob", "s3")], 2, 2,
        [⟨"getOnlineUsers", ["bob"]⟩, ⟨"getOnlineUsers", ["bob"]⟩,
         ⟨"getOnlineUsers", []⟩, ⟨"getOnlineUsers", []⟩,
         ⟨"getOnlineUsers", ["alice"]⟩, ⟨"getOnlineUsers", ["alice"]⟩,
         ⟨"getOnlineUsers", []⟩, ⟨"getOnlineUsers", []⟩]⟩,
      [⟨"s4", none⟩, ⟨"s3", some "bob"⟩]⟩
    (by decide)
  have h2 := h.2.1
    [Event.connection ⟨"s0", some "__proto__"⟩, Event.disconnect ⟨"s0", some "__proto__"⟩,
      Event.connection ⟨"a1", some "alice"⟩, Event.connection ⟨"a2", some "alice"⟩,
      Event.disconnect ⟨"a1", some "alice"⟩, Event.disconnect ⟨"a2", some "alice"⟩]
    [Event.connection ⟨"s4", none⟩] ⟨"s3", some "bob"⟩ rfl (by decide) (by decide) (by decide)
  ⟨h.1, h2.1, h2.2.2 (by decide)⟩

/-- C3 (counterexample): two connections open with the identity `alice` and the earlier
one closes; the later connection is still open and the registry has no entry for `alice`. -/
theorem later_connection_loses_entry :
    (run World.initial
        [Event.connection ⟨"s1", some "alice"⟩, Event.connection ⟨"s2", some "alice"⟩,
          Event.disconnect ⟨"s1", some "alice"⟩]).map
      (fun w => (w.openSockets, w.server.userSocketMap))
      = some ([⟨"s2", some "alice"⟩], []) := by
  decide

/-! ## Registering an identity twice -/

/-- Two opens with the same identity, non-empty and other than `__proto__`: the second
leaves the number of keys as it was after the first, maps the identity to the second
handle, and leaves every other key as it was. -/
theorem reregistration_replaces_handle (st : State) (u h1 h2 : String)
    (hne : u ≠ "") (hp : u ≠ "__proto__") :
    (objectKeys (onConnection (onConnection st ⟨h1, some u⟩) ⟨h2, some u⟩).userSocketMap).length
      = (objectKeys (onConnection st ⟨h1, some u⟩).userSocketMap).length ∧
    getReceiverSocketId (onConnection (onConnection st ⟨h1, some u⟩) ⟨h2, some u⟩) u
      = JSValue.string h2 ∧
    ∀ x : String, x ≠ u →
      getReceiverSocketId (onConnection (onConnection st ⟨h1, some u⟩) ⟨h2, some u⟩) x
        = getReceiverSocketId (onConnection st ⟨h1, some u⟩) x := by
  have ht : truthy (some u) = true := by simp [truthy, hne]
  have hmem : u ∈ objectKeys (onConnection st ⟨h1, some u⟩).userSocketMap := by
    rw [onConnection_userSocketMap, if_pos ht]
    exact (mem_objectKeys_setProperty hp).mpr (Or.inl rfl)
  refine ⟨?_, ?_, ?_⟩
  · rw [onConnection_userSocketMap (onConnection st ⟨h1, some u⟩), if_pos ht]
    exact length_setProperty_of_mem hmem
  · apply getReceiverSocketId_of_lookup
    rw [onConnection_userSocketMap (onConnection st ⟨h1, some u⟩), if_pos ht]
    exact lookup_setProperty_self hp
  · intro x hx
    unfold getReceiverSocketId getProperty
    rw [onConnection_userSocketMap (onConnection st ⟨h1, some u⟩), if_pos ht]
    simp only [toPropertyKey]
    rw [lookup_setProperty_ne hx]

/-- C4 (code defect): two connections open with the identity `__proto__`, which is
non-empty.  The assignment `userSocketMap["__proto__"] = socket.id` creates no property, so
`getReceiverSocketId("__proto__")` does not return the handle of the second connection: it
returns the member `__proto__` of `Object.prototype`, and the registry has no key. -/
theorem getReceiverSocketId_proto_not_handle :
    getReceiverSocketId
        (onConnection (onConnection State.initial ⟨"s1", some "__proto__"⟩)
          ⟨"s2", some "__proto__"⟩) "__proto__"
      = JSValue.inherited "__proto__" ∧
    objectKeys (onConnection (onConnection State.initial ⟨"s1", some "__proto__"⟩)
          ⟨"s2", some "__proto__"⟩).userSocketMap = [] := by
  decide

/-! ## The gauge of active connections -/

theorem activeConnections_foldl_connection (opens : List Socket) (st : State) :
    ((opens.map Event.connection).foldl handle st).activeConnections
      = st.activeConnections + (opens.length : Int) := by
  induction opens generalizing st with
  | nil => simp
  | cons s opens ih =>
    simp only [List.map_cons, List.foldl_cons, handle, List.length_cons]
    rw [ih, onConnection_activeConnections]
    push_cast
    ring

theorem activeConnections_foldl_disconnect (closes : List Socket) (st : State) :
    ((closes.map Event.disconnect).foldl handle st).activeConnections
      = st.activeConnections - (closes.length : Int) := by
  induction closes generalizing st with
  | nil => simp
  | cons s closes ih =>
    simp only [List.map_cons, List.foldl_cons, handle, List.length_cons]
    rw [ih, onDisconnect_activeConnections]
    push_cast
    ring

/-- C5: from a gauge `websocket_connections_active` of 0, after the opens of `opens`
(N connections) followed by the closes of `closes` (M connections) the gauge is N − M;
every open adds exactly one and every close subtracts exactly one, whatever the `userId`
of the socket (supplied, empty or absent, distinct or not). -/
theorem activeConnections_after_opens_then_closes (st : State) (opens closes : List Socket)
    (h0 : st.activeConnections = 0) :
    ((closes.map Event.disconnect).foldl handle
        ((opens.map Event.connection).foldl handle st)).activeConnections
      = (opens.length : Int) - (closes.length : Int) ∧
    (∀ (st' : State) (s : Socket),
      (onConnection st' s).activeConnections = st'.activeConnections + 1) ∧
    (∀ (st' : State) (s : Socket),
      (onDisconnect st' s).activeConnections = st'.activeConnections - 1) := by
  refine ⟨?_, onConnection_activeConnections, onDisconnect_activeConnections⟩
  rw [activeConnections_foldl_disconnect, activeConnections_foldl_connection, h0]
  ring

/-- Witness of `activeConnections_after_opens_then_closes` (C5): three opens (one of them
without identity) and one close from the initial state leave the gauge at 2. -/
theorem activeConnections_after_opens_then_closes_witness :
    (([(⟨"s1", some "alice"⟩ : Socket)].map Event.disconnect).foldl handle
        (([(⟨"s1", some "alice"⟩ : Socket), ⟨"s2", some "bob"⟩, ⟨"s3", none⟩].map
          Event.connection).foldl handle State.initial)).activeConnections
      = ((3 : Nat) : Int) - ((1 : Nat) : Int) :=
  (activeConnections_after_opens_then_closes State.initial
    [⟨"s1", some "alice"⟩, ⟨"s2", some "bob"⟩, ⟨"s3", none⟩] [⟨"s1", some "alice"⟩] rfl).1

/-! ## The broadcast -/

/-- C6: after a connection-open and after a connection-close, from any state, the most
recent `io.emit` is a `getOnlineUsers` whose payload is `Object.keys(userSocketMap)` in the
resulting state.  The scenario open `alice`, open `bob`, close `alice` from the initial
state ends with the payload `["bob"]`, `users_online` at 1 and
`websocket_connections_active` at 1. -/
theorem last_broadcast_is_registry_keys :
    (∀ (st : State) (s : Socket), (onConnection st s).emitted.head? =
        some ⟨"getOnlineUsers", objectKeys (onConnection st s).userSocketMap⟩) ∧
    (∀ (st : State) (s : Socket), (onDisconnect st s).emitted.head? =
        some ⟨"getOnlineUsers", objectKeys (onDisconnect st s).userSocketMap⟩) ∧
    (([Event.connection ⟨"s1", some "alice"⟩, Event.connection ⟨"s2", some "bob"⟩,
        Event.disconnect ⟨"s1", some "alice"⟩].foldl handle State.initial).emitted.head?
        = some ⟨"getOnlineUsers", ["bob"]⟩ ∧
      ([Event.connection ⟨"s1", some "alice"⟩, Event.connection ⟨"s2", some "bob"⟩,
        Event.disconnect ⟨"s1", some "alice"⟩].foldl handle State.initial).usersOnline = 1 ∧
      ([Event.connection ⟨"s1", some "alice"⟩, Event.connection ⟨"s2", some "bob"⟩,
        Event.disconnect ⟨"s1", some "alice"⟩].foldl handle
          State.initial).activeConnections = 1) := by
  refine ⟨?_, ?_, by decide⟩
  · intro st s
    rw [onConnection_emitted]
    rfl
  · intro st s
    rw [onDisconnect_emitted]
    rfl

/-! ## Connections without identity -/

/-- An open whose `userId` is absent or empty leaves the registry as it was. -/
theorem onConnection_registry_of_falsy (st : State) (s : Socket)
    (h : truthy s.userId = false) :
    (onConnection st s).userSocketMap = st.userSocketMap := by
  rw [onConnection_userSocketMap, h]
  rfl

/-- No key of the registry is the empty string in a state the handlers produce from one
without such a key. -/
theorem empty_not_key_handle {st : State} (e : Event)
    (h : "" ∉ objectKeys st.userSocketMap) : "" ∉ objectKeys (handle st e).userSocketMap := by
  cases e with
  | connection s =>
    simp only [handle, onConnection_userSocketMap]
    by_cases ht : truthy s.userId = true
    · rw [if_pos ht]
      obtain ⟨u, hu, hne⟩ := truthy_eq_some ht
      intro hmem
      obtain ⟨v, hv⟩ := List.mem_map.mp hmem
      rcases mem_setProperty (x := v.1) (h := v.2) hv.1 with h1 | ⟨h1, _⟩
      · exact h (List.mem_map.mpr ⟨v, h1, hv.2⟩)
      · rw [hv.2, hu] at h1
        exact hne h1.symm
    · rw [if_neg ht]
      exact h
  | disconnect s =>
    simp only [handle, onDisconnect_userSocketMap]
    exact fun hmem => h (mem_objectKeys_deleteProperty.mp hmem).1

/-- The close of a connection whose `userId` is the empty string leaves the registry as it
was, in every state events lead to from the initial one. -/
theorem onDisconnect_registry_of_empty (es : List Event) (id : String) :
    (onDisconnect (es.foldl handle State.initial) ⟨id, some ""⟩).userSocketMap
      = (es.foldl handle State.initial).userSocketMap := by
  have key : ∀ (es : List Event) (st : State), "" ∉ objectKeys st.userSocketMap →
      "" ∉ objectKeys (es.foldl handle st).userSocketMap := by
    intro es
    induction es with
    | nil => exact fun st h => h
    | cons e es ih => exact fun st h => ih (handle st e) (empty_not_key_handle e h)
  rw [onDisconnect_userSocketMap]
  exact deleteProperty_of_not_mem (key es State.initial (by simp [State.initial, objectKeys]))

/-- C7 (code defect): `delete userSocketMap[userId]` runs for every close, with no test of
`userId`.  A client connects with the identity `undefined` (the string), a second client
connects without identity and closes: the property key of the absent `userId` is
`"undefined"`, so the close of the anonymous connection removes the entry of the first
client, which is still open. -/
theorem anonymous_close_removes_entry :
    (run World.initial
        [Event.connection ⟨"s1", some "undefined"⟩, Event.connection ⟨"s2", none⟩]).map
      (fun w => (w.openSockets, w.server.userSocketMap))
      = some ([⟨"s2", none⟩, ⟨"s1", some "undefined"⟩], [("undefined", "s1")]) ∧
    (run World.initial
        [Event.connection ⟨"s1", some "undefined"⟩, Event.connection ⟨"s2", none⟩,
          Event.disconnect ⟨"s2", none⟩]).map
      (fun w => (w.openSockets, w.server.userSocketMap))
      = some ([⟨"s1", some "undefined"⟩], []) := by
  decide

/-! ## Unregistering an identity that has no entry -/

/-- C8: a connection-close whose identity has no entry in the registry (the key
`userSocketMap[userId]` addresses is not an own key) leaves the registry as it was: same
entries, same number of keys, same result of `getReceiverSocketId` for every identity.  The
handler is a total function: it returns a state and raises nothing. -/
theorem unregister_without_entry_is_noop (st : State) (s : Socket)
    (habs : toPropertyKey s.userId ∉ objectKeys st.userSocketMap) :
    (onDisconnect st s).userSocketMap = st.userSocketMap ∧
    (objectKeys (onDisconnect st s).userSocketMap).length
      = (objectKeys st.userSocketMap).length ∧
    ∀ x : String, getReceiverSocketId (onDisconnect st s) x = getReceiverSocketId st x := by
  have h : (onDisconnect st s).userSocketMap = st.userSocketMap := by
    rw [onDisconnect_userSocketMap]
    exact deleteProperty_of_not_mem habs
  refine ⟨h, by rw [h], ?_⟩
  intro x
  unfold getReceiverSocketId
  rw [h]

/-- Witness of `unregister_without_entry_is_noop` (C8): `alice` is registered and a
connection of `bob`, who has no entry, closes. -/
theorem unregister_without_entry_is_noop_witness :
    (onDisconnect (onConnection State.initial ⟨"s1", some "alice"⟩)
        ⟨"s2", some "bob"⟩).userSocketMap
      = (onConnection State.initial ⟨"s1", some "alice"⟩).userSocketMap :=
  (unregister_without_entry_is_noop (onConnection State.initial ⟨"s1", some "alice"⟩)
    ⟨"s2", some "bob"⟩ (by decide)).1

/-! ## Scenario with an anonymous connection -/

/-- C9: from the initial state, an open with the empty identity followed by an open of
`carol` ends with `users_online` at 1, `websocket_connections_active` at 2 and a registry
whose only key is `carol`. -/
theorem scenario_anonymous_then_carol :
    ([Event.connection ⟨"s1", some ""⟩, Event.connection ⟨"s2", some "carol"⟩].foldl handle
        State.initial).usersOnline = 1 ∧
    ([Event.connection ⟨"s1", some ""⟩, Event.connection ⟨"s2", some "carol"⟩].foldl handle
        State.initial).activeConnections = 2 ∧
    objectKeys ([Event.connection ⟨"s1", some ""⟩,
        Event.connection ⟨"s2", some "carol"⟩].foldl handle State.initial).userSocketMap
      = ["carol"] := by
  decide

/-! ## Registry, gauge and open connections -/

/-- C10: in every state reachable from start-up by opens and by closes of open
connections, the registry has at most as many keys as the gauge
`websocket_connections_active` shows, the gauge is not negative and is the number of open
connections, and every handle stored in the registry is the id of an open connection. -/
theorem reachable_registry_within_active (w : World) (hw : Reachable w) :
    ((objectKeys w.server.userSocketMap).length : Int) ≤ w.server.activeConnections ∧
    0 ≤ w.server.activeConnections ∧
    w.server.activeConnections = (w.openSockets.length : Int) ∧
    ∀ k h : String, (k, h) ∈ w.server.userSocketMap → ∃ s ∈ w.openSockets, s.id = h := by
  have hinv := inv_of_reachable hw
  refine ⟨?_, ?_, hinv.active, ?_⟩
  · rw [hinv.active]
    exact_mod_cast length_objectKeys_le_of_inv hinv
  · rw [hinv.active]
    exact Int.natCast_nonneg _
  · intro k h hm
    exact ⟨⟨h, some k⟩, hinv.entries k h hm, rfl⟩

/-- Witness of `reachable_registry_within_active` (C10): the state after open `alice`, open
without identity, close `alice`. -/
theorem reachable_registry_within_active_witness :
    ((objectKeys ([] : UserSocketMap)).length : Int) ≤ 1 ∧ (0 : Int) ≤ 1 ∧
    (1 : Int) = (([⟨"s2", none⟩] : List Socket).length : Int) :=
  have h := reachable_registry_within_active
    ⟨⟨[], 1, 0, [⟨"getOnlineUsers", []⟩, ⟨"getOnlineUsers", ["alice"]⟩,
        ⟨"getOnlineUsers", ["alice"]⟩]⟩, [⟨"s2", none⟩]⟩
    ⟨[Event.connection ⟨"s1", some "alice"⟩, Event.connection ⟨"s2", none⟩,
        Event.disconnect ⟨"s1", some "alice"⟩], by decide⟩
  ⟨h.1, h.2.1, h.2.2.1⟩

end PresenceRegistry
